import Mathlib

/-!
Verification of the XADC acquisition program (`src/Vitis/XADC_main.c`).

The program configures the XADC system monitor, then loops forever:
submit a 512-byte DMA transfer, busy-wait for completion, flush the data
cache, and print 100 16-bit samples as voltages, followed by a separator
line and a 500 ms delay.

Modelling notes.

* Numeric conversion (`ConvertRawADCToVoltage`, lines 19-20 and 108-115 of
  the C file) is performed in 32-bit IEEE `float`, but every intermediate
  value is exactly representable, so we embed it in `ℚ`:
  - `(float)(adc_value)`: the code is a `u16` cast to `int`, hence in
    `[0, 65535] ⊆ [0, 2^24)`, exact;
  - `* 1.0f` and `/ 65536.0f`: multiplying by one and dividing by a power
    of two are exact (no underflow since the value is 0 or ≥ 2^-16);
  - `(int) voltage` is truncation toward zero;
  - `voltage - integer_part` subtracts an exactly-represented small
    integer (always `0.0f` here) from an exact value, exact;
  - `* 1000`: the exact product is `125 * c / 2^13` with
    `125 * c ≤ 125 * 65535 = 8191875 < 2^23`, hence exactly representable.
  Thus the `float` computation agrees with the `ℚ` computation bit for bit
  on every reachable input and the embedding is faithful.

* The rational operations are written with the kernel-computable helpers
  `ratSub`, `ratMul`, `ratDivNat`, `intToRat`, `natToRat` (defined through
  `Rat.divInt`), so that concrete runs evaluate by `decide`; each helper is
  proved equal to the corresponding Mathlib operation (`ratSub_eq`, ...),
  so statements can be read through ordinary `-`, `*`, `/` and casts.

* The hardware interaction of `main` is embedded as a trace semantics: a
  `HwEnv` records the responses of the hardware services (config lookups,
  initialization statuses, number of busy polls per cycle, DMA-written
  buffer bytes), and `programTrace` produces the list of externally visible
  events (driver calls and printed lines) of a run, following the control
  flow of `main` line by line.  The infinite `while (1)` loop is observed
  through a fuel bound: `programTrace env fuel` is the trace of the run up
  to the first `fuel` loop iterations (a failure exit inside the loop ends
  the trace regardless of remaining fuel).

* `XST_SUCCESS = 0` and `XST_FAILURE = 1` are the standard Xilinx status
  codes from `xstatus.h` (the header is not part of this repository); the
  claims only depend on the two being distinct.

* The DMA buffer is a byte region; samples are read through a `u16 *` view
  of the same memory, little-endian on the target CPU, one sample per two
  bytes in ascending address order.
-/

/-- `MAX_PACKET_LENGTH` (line 9): number of bytes per DMA transfer. -/
def MAX_PACKET_LENGTH : ℕ := 512

/-- `DMA_RX_BUFFER_ADDR` (line 8): DDR address of the DMA receive buffer. -/
def DMA_RX_BUFFER_ADDR : ℕ := 0x00100000

/-- `XST_SUCCESS` from `xstatus.h`. -/
def XST_SUCCESS : ℤ := 0

/-- `XST_FAILURE` from `xstatus.h`. -/
def XST_FAILURE : ℤ := 1

/-! ### Kernel-computable rational arithmetic

`Rat.sub`, `Rat.mul` and the Mathlib field operations on `ℚ` do not reduce
inside `decide` (they are `@[irreducible]` or pass through noncomputable
instance structure), so we write the embedded arithmetic with `Rat.divInt`,
which does, and prove the helpers equal to the ordinary operations. -/

/-- The C `(int)` cast applied to an exact real value: truncation toward
zero, i.e. T-division of the reduced numerator by the denominator. -/
def truncInt (q : ℚ) : ℤ := q.num.tdiv q.den

/-- Computable subtraction on `ℚ` (equal to `a - b`, see `ratSub_eq`). -/
def ratSub (a b : ℚ) : ℚ := Rat.divInt (a.num * b.den - b.num * a.den) (a.den * b.den)

/-- Computable multiplication on `ℚ` (equal to `a * b`, see `ratMul_eq`). -/
def ratMul (a b : ℚ) : ℚ := Rat.divInt (a.num * b.num) (a.den * b.den)

/-- Computable division of a rational by a natural constant
(equal to `a / n` for `n ≠ 0`, see `ratDivNat_eq`). -/
def ratDivNat (a : ℚ) (n : ℕ) : ℚ := Rat.divInt a.num (a.den * n)

/-- Computable cast `ℤ → ℚ` (equal to `Int.cast`, see `intToRat_eq`). -/
def intToRat (z : ℤ) : ℚ := Rat.divInt z 1

/-- Computable cast `ℕ → ℚ` (equal to `Nat.cast`, see `natToRat_eq`). -/
def natToRat (n : ℕ) : ℚ := Rat.divInt n 1

/-! ### The voltage conversion (lines 19-20, 108-115) -/

/-- `ConvertRawADCToVoltage` (lines 19-20):
`(((float)(adc_value)) * (1.0f)) / 65536.0f`, exact in `float` for a
16-bit code (see the header comment), embedded in `ℚ`. -/
def ConvertRawADCToVoltage (adc_value : ℕ) : ℚ :=
  ratDivNat (ratMul (natToRat adc_value) (natToRat 1)) 65536

/-- `integer_part` (line 111): `(int) voltage`. -/
def integer_part (c : ℕ) : ℤ := truncInt (ConvertRawADCToVoltage c)

/-- `fractional_part` (line 112): `(int)((voltage - integer_part) * 1000)`. -/
def fractional_part (c : ℕ) : ℤ :=
  truncInt (ratMul (ratSub (ConvertRawADCToVoltage c) (intToRat (integer_part c))) (natToRat 1000))

/-! ### Trace semantics of `main` (lines 22-129) -/

/-- DMA transfer direction (`XAXIDMA_DEVICE_TO_DMA` / `XAXIDMA_DMA_TO_DEVICE`). -/
inductive Direction where
  | deviceToDma
  | dmaToDevice
deriving DecidableEq

/-- System-monitor sequencer modes used by the program
(`XSM_SEQ_MODE_SAFE`, `XSM_SEQ_MODE_CONTINPASS`). -/
inductive SeqMode where
  | safe
  | continpass
deriving DecidableEq

/-- Channel-enable masks used by the program (`XSM_SEQ_CH_VPVN`): the
register protocol is opaque, the program only ever passes this one mask. -/
inductive ChannelMask where
  | vpvn
deriving DecidableEq

/-- A printed console line (via `print`, `printf`, `xil_printf`). -/
inductive Line where
  /-- `"Entering the main"` (line 26). -/
  | entering
  /-- `"No config found for DMA device ID: %d"` (line 56). -/
  | noDmaConfig
  /-- `"DMA initialization failed with status: %d"` (line 64). -/
  | dmaInitFailed (status : ℤ)
  /-- `"DMA transfer initiation failed with status: %d"` (line 93). -/
  | dmaTransferFailed (status : ℤ)
  /-- `"%d.%03d volts"` (line 115). -/
  | sample (integerPart fractionalPart : ℤ)
  /-- `"********************************"` (line 120). -/
  | separator
deriving DecidableEq

/-- An externally visible event of a run of `main`: a call into one of the
hardware services, a printed line, a delay, or process termination. -/
inductive Event where
  | lookupSysmon (found : Bool)
  | cfgInitSysmon (status : ℤ)
  | setSequencerMode (m : SeqMode)
  | setAlarmEnables (mask : ℕ)
  | setSeqChEnables (ch : ChannelMask)
  | setAdcClkDivisor (d : ℕ)
  | lookupDma (found : Bool)
  | cfgInitDma (status : ℤ)
  | dmaReset
  | resetPoll (done : Bool)
  | intrDisable (dir : Direction)
  | submit (addr len : ℕ) (dir : Direction)
  | busyPoll (busy : Bool)
  | cacheFlush (addr len : ℕ)
  | printLine (l : Line)
  | delay (us : ℕ)
  | exitProcess (code : ℤ)
deriving DecidableEq

/-- Responses of the hardware services during one run: whether each config
lookup finds a descriptor, the statuses returned by the initialization and
transfer calls, how many polls report busy, and the bytes the DMA engine
deposits in the receive buffer each cycle (`buffer s a` = byte at offset
`a` in cycle `s`; a hardware byte is its value `% 256`). -/
structure HwEnv where
  sysmonConfigFound : Bool
  sysmonInitStatus : ℤ
  dmaConfigFound : Bool
  dmaInitStatus : ℤ
  resetPolls : ℕ
  transferStatus : ℕ → ℤ
  busyPolls : ℕ → ℕ
  buffer : ℕ → ℕ → ℕ

/-- Reading sample `i` through the `u16 *` view of the byte buffer
(line 85, little-endian): bytes `2*i` and `2*i+1`. -/
def readU16 (buf : ℕ → ℕ) (i : ℕ) : ℕ :=
  buf (2 * i) % 256 + 256 * (buf (2 * i + 1) % 256)

/-- The line printed for one raw sample (lines 108-115). -/
def sampleLine (c : ℕ) : Line := Line.sample (integer_part c) (fractional_part c)

/-- The five system-monitor configuration calls (lines 43-47), in program
order. -/
def monitorCfgEvents : List Event :=
  [Event.setSequencerMode SeqMode.safe,
   Event.setAlarmEnables 0,
   Event.setSeqChEnables ChannelMask.vpvn,
   Event.setAdcClkDivisor 32,
   Event.setSequencerMode SeqMode.continpass]

/-- Events of the body of one successful cycle after the submit call
(lines 98-123): busy polls, cache flush, 100 sample lines, separator,
delay.  `busyN` is the number of polls that report busy before the
transfer completes; `buf` is the buffer content of this cycle. -/
def cycleBody (busyN : ℕ) (buf : ℕ → ℕ) : List Event :=
  List.replicate busyN (Event.busyPoll true) ++
  Event.busyPoll false ::
  Event.cacheFlush DMA_RX_BUFFER_ADDR MAX_PACKET_LENGTH ::
  ((List.range 100).map fun i => Event.printLine (sampleLine (readU16 buf i))) ++
  Event.printLine Line.separator ::
  [Event.delay 500000]

/-- The `while (1)` loop (lines 82-124), observed for `fuel` iterations
starting at cycle index `s`: each iteration submits a 512-byte
device-to-memory transfer; on `XST_SUCCESS` the cycle body runs and the
loop continues, otherwise the error is printed and the process exits with
`XST_FAILURE` (lines 92-95). -/
def loopTrace (env : HwEnv) : ℕ → ℕ → List Event
  | 0, _ => []
  | fuel + 1, s =>
    Event.submit DMA_RX_BUFFER_ADDR MAX_PACKET_LENGTH Direction.deviceToDma ::
    if env.transferStatus s = XST_SUCCESS then
      cycleBody (env.busyPolls s) (env.buffer s) ++ loopTrace env fuel (s + 1)
    else
      [Event.printLine (Line.dmaTransferFailed (env.transferStatus s)),
       Event.exitProcess XST_FAILURE]

/-- The trace of a run of `main` (lines 22-129) under hardware responses
`env`, observed for up to `fuel` loop iterations: greeting, system-monitor
lookup/init/configuration, DMA lookup/init/reset/interrupt masking, then
the acquisition loop.  A failed lookup or a rejected DMA `CfgInitialize`
exits with `XST_FAILURE`; the result of `XSysMon_CfgInitialize` (line 40)
is not checked by the program. -/
def programTrace (env : HwEnv) (fuel : ℕ) : List Event :=
  Event.printLine Line.entering ::
  Event.lookupSysmon env.sysmonConfigFound ::
  if env.sysmonConfigFound = true then
    Event.cfgInitSysmon env.sysmonInitStatus ::
    monitorCfgEvents ++
    Event.lookupDma env.dmaConfigFound ::
    if env.dmaConfigFound = true then
      Event.cfgInitDma env.dmaInitStatus ::
      if env.dmaInitStatus = XST_SUCCESS then
        Event.dmaReset ::
        List.replicate env.resetPolls (Event.resetPoll false) ++
        Event.resetPoll true ::
        Event.intrDisable Direction.deviceToDma ::
        Event.intrDisable Direction.dmaToDevice ::
        loopTrace env fuel 0
      else
        [Event.printLine (Line.dmaInitFailed env.dmaInitStatus),
         Event.exitProcess XST_FAILURE]
    else
      [Event.printLine Line.noDmaConfig, Event.exitProcess XST_FAILURE]
  else
    [Event.exitProcess XST_FAILURE]

/-- The lines printed by a list of events, in order. -/
def linesOf (t : List Event) : List Line :=
  t.filterMap fun e =>
    match e with
    | Event.printLine l => some l
    | _ => none

/-- A hardware environment in which everything succeeds: both lookups find
a descriptor, both initializations return `XST_SUCCESS`, reset completes
after one poll, every transfer is accepted, completion needs one busy
poll, and the DMA deposits zero bytes. -/
def envOk : HwEnv where
  sysmonConfigFound := true
  sysmonInitStatus := XST_SUCCESS
  dmaConfigFound := true
  dmaInitStatus := XST_SUCCESS
  resetPolls := 1
  transferStatus := fun _ => XST_SUCCESS
  busyPolls := fun _ => 1
  buffer := fun _ _ => 0

/-- Witness for C2: a concrete byte buffer realizing the five codes. -/
def testBuf : ℕ → ℕ := fun a =>
  if a = 3 then 64 else if a = 5 then 128 else if a = 7 then 192
  else if a = 8 then 255 else if a = 9 then 255 else 0

/-- Is this event a register-configuration operation of the analog
monitor? -/
def isMonCfg (e : Event) : Bool :=
  match e with
  | Event.setSequencerMode _ => true
  | Event.setAlarmEnables _ => true
  | Event.setSeqChEnables _ => true
  | Event.setAdcClkDivisor _ => true
  | _ => false

/-- Environment in which the system-monitor descriptor lookup fails. -/
def envNoSysmon : HwEnv := { envOk with sysmonConfigFound := false }

/-- Environment in which `XSysMon_CfgInitialize` is rejected (returns a
nonzero status) but everything else succeeds. -/
def envBadSysmonInit : HwEnv := { envOk with sysmonInitStatus := 1 }

/-- Environment in which `XAxiDma_CfgInitialize` is rejected. -/
def envBadDmaInit : HwEnv := { envOk with dmaInitStatus := 2 }

/-- Is this event a DMA transfer submission? -/
def isSubmit (e : Event) : Bool :=
  match e with
  | Event.submit _ _ _ => true
  | _ => false

/-- The events of a run before the acquisition loop starts, in the
all-initialization-successful case. -/
def initPrefix (env : HwEnv) : List Event :=
  Event.printLine Line.entering ::
  Event.lookupSysmon env.sysmonConfigFound ::
  Event.cfgInitSysmon env.sysmonInitStatus ::
  monitorCfgEvents ++
  Event.lookupDma env.dmaConfigFound ::
  Event.cfgInitDma env.dmaInitStatus ::
  Event.dmaReset ::
  List.replicate env.resetPolls (Event.resetPoll false) ++
  [Event.resetPoll true, Event.intrDisable Direction.deviceToDma,
   Event.intrDisable Direction.dmaToDevice]

/-- Environment whose every transfer submission is rejected. -/
def envFailXfer : HwEnv := { envOk with transferStatus := fun _ => 3 }

/-- Projection of an event onto the batch output stream: sample lines and
separator lines (other printed lines and non-print events are not part of
the batch stream). -/
def batchLine (e : Event) : Option Line :=
  match e with
  | Event.printLine (Line.sample ip fp) => some (Line.sample ip fp)
  | Event.printLine Line.separator => some Line.separator
  | _ => none

/-- The stream of sample/separator lines printed by a list of events. -/
def outputStream (t : List Event) : List Line := t.filterMap batchLine

theorem den_cast_ne {a : ℚ} : ((a.den : ℚ)) ≠ 0 := by
  exact_mod_cast (Rat.den_pos a).ne'

theorem num_eq_mul_den (a : ℚ) : (a.num : ℚ) = a * a.den :=
  (div_eq_iff den_cast_ne).mp (Rat.num_div_den a)

theorem ratSub_eq (a b : ℚ) : ratSub a b = a - b := by
  rw [ratSub, Rat.divInt_eq_div,
    div_eq_iff (by push_cast; exact mul_ne_zero den_cast_ne den_cast_ne)]
  push_cast
  rw [num_eq_mul_den a, num_eq_mul_den b]
  ring

theorem ratMul_eq (a b : ℚ) : ratMul a b = a * b := by
  rw [ratMul, Rat.divInt_eq_div,
    div_eq_iff (by push_cast; exact mul_ne_zero den_cast_ne den_cast_ne)]
  push_cast
  rw [num_eq_mul_den a, num_eq_mul_den b]
  ring

theorem ratDivNat_eq (a : ℚ) {n : ℕ} (hn : n ≠ 0) : ratDivNat a n = a / n := by
  have hn' : ((n : ℚ)) ≠ 0 := by exact_mod_cast hn
  rw [ratDivNat, Rat.divInt_eq_div,
    div_eq_div_iff (by push_cast; exact mul_ne_zero den_cast_ne hn') hn']
  push_cast
  rw [num_eq_mul_den a]
  ring

theorem intToRat_eq (z : ℤ) : intToRat z = (z : ℚ) := by
  rw [intToRat, Rat.divInt_eq_div]; simp

theorem natToRat_eq (n : ℕ) : natToRat n = (n : ℚ) := by
  rw [natToRat, Rat.divInt_eq_div]; simp

theorem truncInt_of_nonneg {q : ℚ} (h : 0 ≤ q) : truncInt q = ⌊q⌋ := by
  rw [truncInt, Int.tdiv_eq_ediv (Rat.num_nonneg.mpr h) (Int.natCast_nonneg _), Rat.floor_def]

theorem ConvertRawADCToVoltage_eq (c : ℕ) :
    ConvertRawADCToVoltage c = (c : ℚ) / 65536 := by
  rw [ConvertRawADCToVoltage, ratDivNat_eq _ (by norm_num), ratMul_eq, natToRat_eq, natToRat_eq]
  norm_num

theorem fractional_part_eq (c : ℕ) :
    fractional_part c =
      truncInt ((ConvertRawADCToVoltage c - (integer_part c : ℚ)) * 1000) := by
  rw [fractional_part, ratMul_eq, ratSub_eq, intToRat_eq, natToRat_eq]
  norm_num

theorem voltage_nonneg (c : ℕ) : 0 ≤ ConvertRawADCToVoltage c := by
  rw [ConvertRawADCToVoltage_eq]; positivity

theorem voltage_lt_one {c : ℕ} (hc : c < 65536) : ConvertRawADCToVoltage c < 1 := by
  rw [ConvertRawADCToVoltage_eq, div_lt_one (by norm_num)]
  exact_mod_cast hc

theorem floor_voltage {c : ℕ} (hc : c < 65536) : ⌊ConvertRawADCToVoltage c⌋ = 0 := by
  rw [Int.floor_eq_zero_iff]
  exact ⟨voltage_nonneg c, voltage_lt_one hc⟩

theorem integer_part_eq_zero {c : ℕ} (hc : c < 65536) : integer_part c = 0 := by
  rw [integer_part, truncInt_of_nonneg (voltage_nonneg c), floor_voltage hc]

theorem fractional_part_eq_floor {c : ℕ} (hc : c < 65536) :
    fractional_part c = ⌊ConvertRawADCToVoltage c * 1000⌋ := by
  rw [fractional_part_eq, integer_part_eq_zero hc]
  rw [truncInt_of_nonneg (mul_nonneg (by simpa using voltage_nonneg c) (by norm_num))]
  norm_num

theorem fractional_part_bounds {c : ℕ} (hc : c < 65536) :
    0 ≤ fractional_part c ∧ fractional_part c ≤ 999 := by
  rw [fractional_part_eq_floor hc]
  constructor
  · exact Int.floor_nonneg.mpr (mul_nonneg (voltage_nonneg c) (by norm_num))
  · have h1 : ConvertRawADCToVoltage c * 1000 < 1000 := by
      have := voltage_lt_one hc
      nlinarith
    have h2 : ⌊ConvertRawADCToVoltage c * 1000⌋ < 1000 :=
      Int.floor_lt.mpr (by exact_mod_cast h1)
    omega

theorem readU16_lt (buf : ℕ → ℕ) (i : ℕ) : readU16 buf i < 65536 := by
  have h1 : buf (2 * i) % 256 < 256 := Nat.mod_lt _ (by norm_num)
  have h2 : buf (2 * i + 1) % 256 < 256 := Nat.mod_lt _ (by norm_num)
  unfold readU16
  omega

theorem sample_mem_cycleBody {k : ℕ} {buf : ℕ → ℕ} {ip fp : ℤ}
    (h : Event.printLine (Line.sample ip fp) ∈ cycleBody k buf) :
    ∃ c, c < 65536 ∧ ip = integer_part c ∧ fp = fractional_part c := by
  simp [cycleBody, sampleLine, List.mem_replicate] at h
  obtain ⟨i, -, h1, h2⟩ := h
  exact ⟨readU16 buf i, readU16_lt buf i, h1.symm, h2.symm⟩

theorem sample_mem_loopTrace {env : HwEnv} {ip fp : ℤ} :
    ∀ fuel s, Event.printLine (Line.sample ip fp) ∈ loopTrace env fuel s →
    ∃ c, c < 65536 ∧ ip = integer_part c ∧ fp = fractional_part c := by
  intro fuel
  induction fuel with
  | zero => intro s h; simp [loopTrace] at h
  | succ n ih =>
    intro s h
    simp only [loopTrace, List.mem_cons] at h
    rcases h with h | h
    · cases h
    · by_cases hs : env.transferStatus s = XST_SUCCESS
      · rw [if_pos hs, List.mem_append] at h
        rcases h with h | h
        · exact sample_mem_cycleBody h
        · exact ih (s + 1) h
      · rw [if_neg hs] at h
        simp at h

theorem sample_mem_programTrace {env : HwEnv} {fuel : ℕ} {ip fp : ℤ}
    (h : Event.printLine (Line.sample ip fp) ∈ programTrace env fuel) :
    ∃ c, c < 65536 ∧ ip = integer_part c ∧ fp = fractional_part c := by
  by_cases h1 : env.sysmonConfigFound = true
  · by_cases h2 : env.dmaConfigFound = true
    · by_cases h3 : env.dmaInitStatus = XST_SUCCESS
      · simp [programTrace, monitorCfgEvents, h1, h2, h3, List.mem_replicate] at h
        exact sample_mem_loopTrace fuel 0 h
      · simp [programTrace, monitorCfgEvents, h1, h2, h3] at h
    · simp [programTrace, monitorCfgEvents, h1, h2] at h
  · simp [programTrace, h1] at h

/-- C1: for every raw 16-bit code `c ∈ [0, 65535]`, the voltage computed
from `c` equals `c / 65536`, and the emitted fractional digits equal
`⌊(voltage - ⌊voltage⌋) * 1000⌋` — truncation, not rounding. -/
theorem C1_voltage_and_truncation (c : ℕ) (hc : c ≤ 65535) :
    ConvertRawADCToVoltage c = (c : ℚ) / 65536 ∧
    fractional_part c = ⌊(ConvertRawADCToVoltage c - ⌊ConvertRawADCToVoltage c⌋) * 1000⌋ := by
  have hc' : c < 65536 := by omega
  refine ⟨ConvertRawADCToVoltage_eq c, ?_⟩
  rw [floor_voltage hc', fractional_part_eq_floor hc']
  norm_num

/-- Witness for C1 at the truncation-sensitive code `c = 65530`
(voltage ≈ 0.999908…, emitted digits 999, not the rounded 1000). -/
theorem C1_witness :
    (65530 ≤ 65535 ∧
      ConvertRawADCToVoltage 65530 = (65530 : ℚ) / 65536 ∧
      fractional_part 65530 =
        ⌊(ConvertRawADCToVoltage 65530 - ⌊ConvertRawADCToVoltage 65530⌋) * 1000⌋) ∧
    fractional_part 65530 = 999 :=
  ⟨⟨by norm_num, C1_voltage_and_truncation 65530 (by norm_num)⟩, by decide⟩

/-- C9: every sample line printed by any run of the program has integer
part `0` and fractional part in `[0, 999]`; in particular the value
`1.000` is never printed. -/
theorem C9_printed_sample_shape (env : HwEnv) (fuel : ℕ) (ip fp : ℤ)
    (h : Event.printLine (Line.sample ip fp) ∈ programTrace env fuel) :
    ip = 0 ∧ 0 ≤ fp ∧ fp ≤ 999 := by
  obtain ⟨c, hc, hip, hfp⟩ := sample_mem_programTrace h
  subst hip
  subst hfp
  obtain ⟨l, r⟩ := fractional_part_bounds hc
  exact ⟨integer_part_eq_zero hc, l, r⟩

/-- Witness for C9: the all-zero run prints the sample line `0.000`. -/
theorem C9_witness : (0 : ℤ) = 0 ∧ (0 : ℤ) ≤ 0 ∧ (0 : ℤ) ≤ 999 :=
  C9_printed_sample_shape envOk 1 0 0 (by decide)

theorem linesOf_map_printLine {α : Type} (f : α → Line) (l : List α) :
    linesOf (l.map fun a => Event.printLine (f a)) = l.map f := by
  induction l with
  | nil => rfl
  | cons x xs ih => simp only [List.map_cons, linesOf, List.filterMap_cons] at ih ⊢; rw [ih]

theorem linesOf_cycleBody (k : ℕ) (buf : ℕ → ℕ) :
    linesOf (cycleBody k buf) =
      ((List.range 100).map fun i => sampleLine (readU16 buf i)) ++ [Line.separator] := by
  have hmap := linesOf_map_printLine (fun i => sampleLine (readU16 buf i)) (List.range 100)
  induction k with
  | zero =>
    simp only [cycleBody, List.replicate, List.nil_append, linesOf, List.filterMap_cons,
      List.filterMap_append] at hmap ⊢
    rw [hmap]
    rfl
  | succ m ih =>
    simp only [cycleBody, List.replicate_succ, List.cons_append, linesOf,
      List.filterMap_cons] at ih ⊢
    exact ih

/-- C2: a cycle whose buffer starts with the codes
`[0, 16384, 32768, 49152, 65535, ...]` emits exactly 100 sample lines in
ascending sample order followed by exactly one separator line, the first
five reading `0.000`, `0.250`, `0.500`, `0.750`, `0.999`. -/
theorem C2_end_to_end (k : ℕ) (buf : ℕ → ℕ)
    (h0 : readU16 buf 0 = 0) (h1 : readU16 buf 1 = 16384)
    (h2 : readU16 buf 2 = 32768) (h3 : readU16 buf 3 = 49152)
    (h4 : readU16 buf 4 = 65535) :
    linesOf (cycleBody k buf) =
      ((List.range 100).map fun i => sampleLine (readU16 buf i)) ++ [Line.separator] ∧
    (linesOf (cycleBody k buf)).length = 101 ∧
    (linesOf (cycleBody k buf)).take 5 =
      [Line.sample 0 0, Line.sample 0 250, Line.sample 0 500,
       Line.sample 0 750, Line.sample 0 999] := by
  have hlines := linesOf_cycleBody k buf
  have e0 : sampleLine 0 = Line.sample 0 0 := by decide
  have e1 : sampleLine 16384 = Line.sample 0 250 := by decide
  have e2 : sampleLine 32768 = Line.sample 0 500 := by decide
  have e3 : sampleLine 49152 = Line.sample 0 750 := by decide
  have e4 : sampleLine 65535 = Line.sample 0 999 := by decide
  refine ⟨hlines, by rw [hlines]; simp, ?_⟩
  rw [hlines, List.take_append_of_le_length (by simp), ← List.map_take, List.take_range]
  norm_num
  rw [show List.range 5 = [0, 1, 2, 3, 4] by decide]
  simp only [List.map_cons, List.map_nil, h0, h1, h2, h3, h4, e0, e1, e2, e3, e4]

theorem C2_witness :
    readU16 testBuf 1 = 16384 ∧
    (linesOf (cycleBody 0 testBuf)).take 5 =
      [Line.sample 0 0, Line.sample 0 250, Line.sample 0 500,
       Line.sample 0 750, Line.sample 0 999] :=
  ⟨by decide,
   (C2_end_to_end 0 testBuf (by decide) (by decide) (by decide) (by decide) (by decide)).2.2⟩

theorem submit_mem_cycleBody {k : ℕ} {buf : ℕ → ℕ} {a n : ℕ} {d : Direction}
    (h : Event.submit a n d ∈ cycleBody k buf) : False := by
  simp [cycleBody, List.mem_replicate] at h

theorem submit_mem_loopTrace {env : HwEnv} {a n : ℕ} {d : Direction} :
    ∀ fuel s, Event.submit a n d ∈ loopTrace env fuel s →
    a = DMA_RX_BUFFER_ADDR ∧ n = MAX_PACKET_LENGTH ∧ d = Direction.deviceToDma := by
  intro fuel
  induction fuel with
  | zero => intro s h; simp [loopTrace] at h
  | succ m ih =>
    intro s h
    simp only [loopTrace, List.mem_cons] at h
    rcases h with h | h
    · simpa using h
    · by_cases hs : env.transferStatus s = XST_SUCCESS
      · rw [if_pos hs, List.mem_append] at h
        rcases h with h | h
        · exact absurd h submit_mem_cycleBody
        · exact ih (s + 1) h
      · rw [if_neg hs] at h
        simp at h

/-- C3: every acquisition cycle submits a transfer of exactly 512 bytes
into the receive buffer, and the cycle interprets only the first 200
bytes (100 two-byte samples, ascending): two buffers agreeing on bytes
`[0, 200)` produce identical cycles, so the remaining 312 bytes are never
read. -/
theorem C3_transfer_length_and_partial_consumption :
    (∀ (env : HwEnv) (fuel : ℕ) (a n : ℕ) (d : Direction),
        Event.submit a n d ∈ programTrace env fuel →
        n = 512 ∧ a = DMA_RX_BUFFER_ADDR ∧ d = Direction.deviceToDma) ∧
    (∀ (k : ℕ) (b1 b2 : ℕ → ℕ), (∀ a, a < 200 → b1 a = b2 a) →
        cycleBody k b1 = cycleBody k b2) := by
  constructor
  · intro env fuel a n d h
    by_cases h1 : env.sysmonConfigFound = true
    · by_cases h2 : env.dmaConfigFound = true
      · by_cases h3 : env.dmaInitStatus = XST_SUCCESS
        · simp [programTrace, monitorCfgEvents, h1, h2, h3, List.mem_replicate] at h
          obtain ⟨ha, hn, hd⟩ := submit_mem_loopTrace fuel 0 h
          exact ⟨hn, ha, hd⟩
        · simp [programTrace, monitorCfgEvents, h1, h2, h3] at h
      · simp [programTrace, monitorCfgEvents, h1, h2] at h
    · simp [programTrace, h1] at h
  · intro k b1 b2 hag
    unfold cycleBody
    have : ∀ i ∈ List.range 100, readU16 b1 i = readU16 b2 i := by
      intro i hi
      rw [List.mem_range] at hi
      unfold readU16
      rw [hag (2 * i) (by omega), hag (2 * i + 1) (by omega)]
    rw [List.map_congr_left fun i hi => by rw [this i hi]]

/-- Witness for C3: the submit of the all-success run carries length 512,
and a buffer disturbed only from byte 200 on yields the same cycle. -/
theorem C3_witness :
    ((512 : ℕ) = 512 ∧ DMA_RX_BUFFER_ADDR = DMA_RX_BUFFER_ADDR ∧
      Direction.deviceToDma = Direction.deviceToDma) ∧
    cycleBody 0 (fun _ => 0) = cycleBody 0 (fun a => if a < 200 then 0 else 7) :=
  ⟨C3_transfer_length_and_partial_consumption.1 envOk 1 DMA_RX_BUFFER_ADDR 512
      Direction.deviceToDma (by decide),
   C3_transfer_length_and_partial_consumption.2 0 _ _ (fun a ha => by simp [ha])⟩

theorem monCfg_filter_cycleBody (k : ℕ) (buf : ℕ → ℕ) :
    (cycleBody k buf).filter isMonCfg = [] := by
  rw [List.filter_eq_nil_iff]
  intro e he
  cases e <;> simp [isMonCfg] <;> simp [cycleBody, List.mem_replicate] at he

theorem monCfg_filter_loopTrace (env : HwEnv) :
    ∀ fuel s, (loopTrace env fuel s).filter isMonCfg = [] := by
  intro fuel
  induction fuel with
  | zero => intro s; rfl
  | succ m ih =>
    intro s
    by_cases hs : env.transferStatus s = XST_SUCCESS <;>
      simp [loopTrace, hs, List.filter_cons, List.filter_append,
        monCfg_filter_cycleBody, ih, isMonCfg]

/-- C4: when the monitor descriptor is found, the run configures the
analog monitor by exactly these five operations, contiguously and in this
order — enter Safe mode, disable all alarms, set the channel mask, set
the clock divisor, enter ContinuousPass mode — and no other
monitor-configuration operation occurs anywhere in the run. -/
theorem C4_monitor_config_order (env : HwEnv) (fuel : ℕ)
    (h1 : env.sysmonConfigFound = true) :
    ∃ pre post,
      programTrace env fuel = pre ++ monitorCfgEvents ++ post ∧
      pre.filter isMonCfg = [] ∧ post.filter isMonCfg = [] ∧
      monitorCfgEvents =
        [Event.setSequencerMode SeqMode.safe,
         Event.setAlarmEnables 0,
         Event.setSeqChEnables ChannelMask.vpvn,
         Event.setAdcClkDivisor 32,
         Event.setSequencerMode SeqMode.continpass] := by
  refine ⟨[Event.printLine Line.entering, Event.lookupSysmon env.sysmonConfigFound,
           Event.cfgInitSysmon env.sysmonInitStatus],
          Event.lookupDma env.dmaConfigFound ::
            (if env.dmaConfigFound = true then
              Event.cfgInitDma env.dmaInitStatus ::
              (if env.dmaInitStatus = XST_SUCCESS then
                Event.dmaReset ::
                List.replicate env.resetPolls (Event.resetPoll false) ++
                Event.resetPoll true ::
                Event.intrDisable Direction.deviceToDma ::
                Event.intrDisable Direction.dmaToDevice ::
                loopTrace env fuel 0
              else
                [Event.printLine (Line.dmaInitFailed env.dmaInitStatus),
                 Event.exitProcess XST_FAILURE])
            else
              [Event.printLine Line.noDmaConfig, Event.exitProcess XST_FAILURE]),
          ?_, rfl, ?_, rfl⟩
  · simp [programTrace, h1]
  · by_cases h2 : env.dmaConfigFound = true
    · by_cases h3 : env.dmaInitStatus = XST_SUCCESS <;>
        simp [h2, h3, List.filter_cons, List.filter_append, List.filter_replicate,
          monCfg_filter_loopTrace, isMonCfg]
    · simp [h2, List.filter_cons, isMonCfg]

/-- Witness for C4 in the all-success environment. -/
theorem C4_witness :
    ∃ pre post,
      programTrace envOk 0 = pre ++ monitorCfgEvents ++ post ∧
      pre.filter isMonCfg = [] ∧ post.filter isMonCfg = [] ∧
      monitorCfgEvents =
        [Event.setSequencerMode SeqMode.safe,
         Event.setAlarmEnables 0,
         Event.setSeqChEnables ChannelMask.vpvn,
         Event.setAdcClkDivisor 32,
         Event.setSequencerMode SeqMode.continpass] :=
  C4_monitor_config_order envOk 0 (by decide)

/-- C5: within a cycle, the submit strictly precedes the completion wait
(a nonempty run of busy polls of which every poll before the last reports
busy and the last reports not-busy — the wait does not return while the
engine is busy), which strictly precedes the cache flush of the buffer,
which strictly precedes all interpretation of the buffer as samples. -/
theorem C5_intra_cycle_ordering (env : HwEnv) (fuel s : ℕ)
    (h : env.transferStatus s = XST_SUCCESS) :
    ∃ waitPolls interp,
      loopTrace env (fuel + 1) s =
        Event.submit DMA_RX_BUFFER_ADDR MAX_PACKET_LENGTH Direction.deviceToDma ::
          (waitPolls ++ Event.cacheFlush DMA_RX_BUFFER_ADDR MAX_PACKET_LENGTH :: interp) ∧
      waitPolls ≠ [] ∧
      (∀ e ∈ waitPolls, ∃ b, e = Event.busyPoll b) ∧
      waitPolls.getLast? = some (Event.busyPoll false) ∧
      (∀ e ∈ waitPolls.dropLast, e = Event.busyPoll true) ∧
      interp =
        ((List.range 100).map fun i =>
          Event.printLine (sampleLine (readU16 (env.buffer s) i))) ++
          Event.printLine Line.separator :: Event.delay 500000 ::
            loopTrace env fuel (s + 1) := by
  refine ⟨List.replicate (env.busyPolls s) (Event.busyPoll true) ++ [Event.busyPoll false],
          ((List.range 100).map fun i =>
            Event.printLine (sampleLine (readU16 (env.buffer s) i))) ++
            Event.printLine Line.separator :: Event.delay 500000 ::
              loopTrace env fuel (s + 1),
          ?_, by simp, ?_, ?_, ?_, rfl⟩
  · simp [loopTrace, h, cycleBody]
  · intro e he
    rw [List.mem_append, List.mem_replicate] at he
    rcases he with ⟨-, rfl⟩ | he
    · exact ⟨true, rfl⟩
    · rw [List.mem_singleton] at he
      exact ⟨false, he⟩
  · simp
  · intro e he
    rw [List.dropLast_concat, List.mem_replicate] at he
    exact he.2

/-- Witness for C5: the first cycle of the all-success run. -/
theorem C5_witness :
    ∃ waitPolls interp,
      loopTrace envOk (0 + 1) 0 =
        Event.submit DMA_RX_BUFFER_ADDR MAX_PACKET_LENGTH Direction.deviceToDma ::
          (waitPolls ++ Event.cacheFlush DMA_RX_BUFFER_ADDR MAX_PACKET_LENGTH :: interp) ∧
      waitPolls ≠ [] ∧
      (∀ e ∈ waitPolls, ∃ b, e = Event.busyPoll b) ∧
      waitPolls.getLast? = some (Event.busyPoll false) ∧
      (∀ e ∈ waitPolls.dropLast, e = Event.busyPoll true) ∧
      interp =
        ((List.range 100).map fun i =>
          Event.printLine (sampleLine (readU16 (envOk.buffer 0) i))) ++
          Event.printLine Line.separator :: Event.delay 500000 ::
            loopTrace envOk 0 (0 + 1) :=
  C5_intra_cycle_ordering envOk 0 0 (by decide)

/-- C6: if a hardware instance-descriptor lookup fails (system monitor or
DMA), the run ends with a failure exit, no transfer is ever submitted, and
no sample line is ever printed — no acquisition cycle executes. -/
theorem C6_lookup_failure_terminates (env : HwEnv) (fuel : ℕ)
    (h : env.sysmonConfigFound = false ∨ env.dmaConfigFound = false) :
    (programTrace env fuel).getLast? = some (Event.exitProcess XST_FAILURE) ∧
    (∀ (a n : ℕ) (d : Direction), Event.submit a n d ∉ programTrace env fuel) ∧
    (∀ ip fp : ℤ, Event.printLine (Line.sample ip fp) ∉ programTrace env fuel) := by
  by_cases h1 : env.sysmonConfigFound = true
  · have h2 : ¬env.dmaConfigFound = true := by
      rcases h with h | h
      · rw [h1] at h; cases h
      · simp [h]
    refine ⟨?_, ?_, ?_⟩
    · simp [programTrace, h1, h2, monitorCfgEvents]
    · intro a n d hc
      simp [programTrace, h1, h2, monitorCfgEvents] at hc
    · intro ip fp hc
      simp [programTrace, h1, h2, monitorCfgEvents] at hc
  · refine ⟨?_, ?_, ?_⟩
    · simp [programTrace, h1]
    · intro a n d hc
      simp [programTrace, h1] at hc
    · intro ip fp hc
      simp [programTrace, h1] at hc

/-- Witness for C6: with the monitor descriptor missing, the run exits
with `XST_FAILURE` and never submits the 512-byte transfer. -/
theorem C6_witness :
    (programTrace envNoSysmon 3).getLast? = some (Event.exitProcess XST_FAILURE) ∧
    Event.submit DMA_RX_BUFFER_ADDR 512 Direction.deviceToDma ∉ programTrace envNoSysmon 3 ∧
    Event.printLine (Line.sample 0 0) ∉ programTrace envNoSysmon 3 :=
  ⟨(C6_lookup_failure_terminates envNoSysmon 3 (Or.inl rfl)).1,
   (C6_lookup_failure_terminates envNoSysmon 3 (Or.inl rfl)).2.1 DMA_RX_BUFFER_ADDR 512
     Direction.deviceToDma,
   (C6_lookup_failure_terminates envNoSysmon 3 (Or.inl rfl)).2.2 0 0⟩

/-- Counterexample to C7: the program never checks the status returned by
`XSysMon_CfgInitialize` (line 40).  With that call rejected and all else
well, the run still reaches the acquisition loop (a transfer is
submitted) and never exits with a failure status — startup is not
terminated. -/
theorem C7_counterexample :
    envBadSysmonInit.sysmonInitStatus ≠ XST_SUCCESS ∧
    Event.submit DMA_RX_BUFFER_ADDR 512 Direction.deviceToDma ∈
      programTrace envBadSysmonInit 1 ∧
    Event.exitProcess XST_FAILURE ∉ programTrace envBadSysmonInit 1 :=
  ⟨by decide, by decide, by decide⟩

/-- C7 (amended): a rejected `XAxiDma_CfgInitialize` terminates startup
with a failure exit and no transfer is ever submitted; the status of
`XSysMon_CfgInitialize`, by contrast, is ignored — whenever both lookups
succeed and the DMA initialization is accepted, the acquisition loop runs
(and submits) regardless of the monitor's initialization status. -/
theorem C7_init_failure_behavior (env : HwEnv) (fuel : ℕ)
    (hsm : env.sysmonConfigFound = true) (hdm : env.dmaConfigFound = true) :
    (env.dmaInitStatus ≠ XST_SUCCESS →
      (programTrace env fuel).getLast? = some (Event.exitProcess XST_FAILURE) ∧
      ∀ (a n : ℕ) (d : Direction), Event.submit a n d ∉ programTrace env fuel) ∧
    (env.dmaInitStatus = XST_SUCCESS → 0 < fuel →
      Event.submit DMA_RX_BUFFER_ADDR MAX_PACKET_LENGTH Direction.deviceToDma ∈
        programTrace env fuel) := by
  constructor
  · intro h3
    refine ⟨?_, ?_⟩
    · simp [programTrace, hsm, hdm, h3, monitorCfgEvents]
    · intro a n d hc
      simp [programTrace, hsm, hdm, h3, monitorCfgEvents] at hc
  · intro h3 hfuel
    cases fuel with
    | zero => omega
    | succ m =>
      simp [programTrace, hsm, hdm, h3, monitorCfgEvents, loopTrace, List.mem_replicate]

/-- Witness for C7: a rejected DMA `CfgInitialize` ends the run with a
failure exit and no submit. -/
theorem C7_witness :
    (programTrace envBadDmaInit 1).getLast? = some (Event.exitProcess XST_FAILURE) ∧
    Event.submit DMA_RX_BUFFER_ADDR 512 Direction.deviceToDma ∉ programTrace envBadDmaInit 1 :=
  ⟨((C7_init_failure_behavior envBadDmaInit 1 rfl rfl).1 (by decide)).1,
   ((C7_init_failure_behavior envBadDmaInit 1 rfl rfl).1 (by decide)).2
     DMA_RX_BUFFER_ADDR 512 Direction.deviceToDma⟩

theorem submit_countP_cycleBody (k : ℕ) (buf : ℕ → ℕ) :
    (cycleBody k buf).countP isSubmit = 0 := by
  rw [List.countP_eq_zero]
  intro e he
  cases e <;> simp [isSubmit]
  simp [cycleBody, List.mem_replicate] at he

/-- If all transfers before cycle `n` are accepted and the one of cycle
`n` is rejected, the loop (started at `s ≤ n`, observed long enough) ends
with a failure exit, prints the transfer-failure message, and performs
exactly `n + 1 - s` submits — one per attempted cycle, no retry. -/
theorem loopTrace_first_fail (env : HwEnv) :
    ∀ fuel s n : ℕ, s ≤ n → n < s + fuel →
      (∀ m, s ≤ m → m < n → env.transferStatus m = XST_SUCCESS) →
      env.transferStatus n ≠ XST_SUCCESS →
      (loopTrace env fuel s).getLast? = some (Event.exitProcess XST_FAILURE) ∧
      Event.printLine (Line.dmaTransferFailed (env.transferStatus n)) ∈ loopTrace env fuel s ∧
      (loopTrace env fuel s).countP isSubmit = n + 1 - s := by
  intro fuel
  induction fuel with
  | zero => intro s n h1 h2 _ _; omega
  | succ m ih =>
    intro s n hsn hlt hprev hfail
    by_cases hs : s = n
    · subst hs
      refine ⟨?_, ?_, ?_⟩
      · simp [loopTrace, hfail]
      · simp [loopTrace, hfail]
      · simp [loopTrace, hfail, List.countP_cons, isSubmit]
    · have hlt2 : s < n := lt_of_le_of_ne hsn hs
      have hsucc : env.transferStatus s = XST_SUCCESS := hprev s le_rfl hlt2
      obtain ⟨ihl, ihm, ihc⟩ :=
        ih (s + 1) n hlt2 (by omega) (fun m h1 h2 => hprev m (by omega) h2) hfail
      have hshape : loopTrace env (m + 1) s =
          (Event.submit DMA_RX_BUFFER_ADDR MAX_PACKET_LENGTH Direction.deviceToDma ::
            cycleBody (env.busyPolls s) (env.buffer s)) ++ loopTrace env m (s + 1) := by
        simp [loopTrace, hsucc]
      refine ⟨?_, ?_, ?_⟩
      · rw [hshape, List.getLast?_append, ihl]
        rfl
      · rw [hshape, List.mem_append]
        exact Or.inr ihm
      · rw [hshape, List.countP_append, List.countP_cons, submit_countP_cycleBody, ihc]
        simp [isSubmit]
        omega

theorem programTrace_good (env : HwEnv) (fuel : ℕ)
    (hsm : env.sysmonConfigFound = true) (hdm : env.dmaConfigFound = true)
    (hinit : env.dmaInitStatus = XST_SUCCESS) :
    programTrace env fuel = initPrefix env ++ loopTrace env fuel 0 := by
  simp [programTrace, initPrefix, hsm, hdm, hinit]

theorem submit_countP_initPrefix (env : HwEnv) :
    (initPrefix env).countP isSubmit = 0 := by
  rw [List.countP_eq_zero]
  intro e he
  cases e <;> simp [isSubmit]
  simp [initPrefix, monitorCfgEvents, List.mem_replicate] at he

/-- C8: a rejected transfer submit during a running cycle is fatal — the
run prints the transfer-failure message and ends with a failure exit, and
the failing cycle is not retried: a run whose first rejected transfer is
at cycle `n` performs exactly `n + 1` submits in total. -/
theorem C8_cycle_error_fatal (env : HwEnv) (fuel n : ℕ)
    (hsm : env.sysmonConfigFound = true) (hdm : env.dmaConfigFound = true)
    (hinit : env.dmaInitStatus = XST_SUCCESS)
    (hn : n < fuel)
    (hprev : ∀ m, m < n → env.transferStatus m = XST_SUCCESS)
    (hfail : env.transferStatus n ≠ XST_SUCCESS) :
    (programTrace env fuel).getLast? = some (Event.exitProcess XST_FAILURE) ∧
    Event.printLine (Line.dmaTransferFailed (env.transferStatus n)) ∈ programTrace env fuel ∧
    (programTrace env fuel).countP isSubmit = n + 1 := by
  obtain ⟨hl, hm, hc⟩ := loopTrace_first_fail env fuel 0 n (by omega) (by omega)
    (fun m _ h2 => hprev m h2) hfail
  rw [programTrace_good env fuel hsm hdm hinit]
  refine ⟨?_, ?_, ?_⟩
  · rw [List.getLast?_append, hl]
    rfl
  · rw [List.mem_append]
    exact Or.inr hm
  · rw [List.countP_append, submit_countP_initPrefix, hc]
    omega

/-- Witness for C8: first cycle's submit rejected, run exits after exactly
one submit and reports the error. -/
theorem C8_witness :
    (programTrace envFailXfer 2).getLast? = some (Event.exitProcess XST_FAILURE) ∧
    Event.printLine (Line.dmaTransferFailed (envFailXfer.transferStatus 0)) ∈
      programTrace envFailXfer 2 ∧
    (programTrace envFailXfer 2).countP isSubmit = 0 + 1 :=
  C8_cycle_error_fatal envFailXfer 2 0 rfl rfl rfl (by omega)
    (fun m hm => absurd hm (Nat.not_lt_zero m)) (by decide)

theorem filterMap_none_replicate {α β : Type} (f : α → Option β) (a : α)
    (h : f a = none) (k : ℕ) : (List.replicate k a).filterMap f = [] := by
  induction k with
  | zero => rfl
  | succ m ih => simp [List.replicate_succ, List.filterMap_cons, h, ih]

theorem outputStream_map_sample (f : ℕ → ℕ) (l : List ℕ) :
    (l.map fun i => Event.printLine (sampleLine (f i))).filterMap batchLine =
      l.map fun i => sampleLine (f i) := by
  induction l with
  | nil => rfl
  | cons x xs ih =>
    simp only [List.map_cons, List.filterMap_cons, sampleLine, batchLine] at ih ⊢
    rw [ih]

theorem outputStream_cycleBody (k : ℕ) (buf : ℕ → ℕ) :
    outputStream (cycleBody k buf) =
      ((List.range 100).map fun i => sampleLine (readU16 buf i)) ++ [Line.separator] := by
  have hmap := outputStream_map_sample (fun i => readU16 buf i) (List.range 100)
  simp only [outputStream, cycleBody, List.filterMap_append, List.filterMap_cons,
    filterMap_none_replicate batchLine (Event.busyPoll true) rfl, batchLine, hmap]
  simp

theorem outputStream_initPrefix (env : HwEnv) : outputStream (initPrefix env) = [] := by
  simp [outputStream, initPrefix, monitorCfgEvents, List.filterMap_cons,
    List.filterMap_append,
    filterMap_none_replicate batchLine (Event.resetPoll false) rfl, batchLine]

theorem outputStream_loopTrace (env : HwEnv) :
    ∀ fuel s, ∃ batches : List (List Line),
      outputStream (loopTrace env fuel s) = batches.flatten ∧
      ∀ b ∈ batches, ∃ samples : List Line,
        b = samples ++ [Line.separator] ∧ samples.length = 100 ∧
        ∀ l ∈ samples, ∃ ip fp, l = Line.sample ip fp := by
  intro fuel
  induction fuel with
  | zero => intro s; exact ⟨[], rfl, by simp⟩
  | succ m ih =>
    intro s
    by_cases hs : env.transferStatus s = XST_SUCCESS
    · obtain ⟨bs, hbs, hshape⟩ := ih (s + 1)
      refine ⟨(((List.range 100).map fun i => sampleLine (readU16 (env.buffer s) i)) ++
                [Line.separator]) :: bs, ?_, ?_⟩
      · have hsplit : loopTrace env (m + 1) s =
            (Event.submit DMA_RX_BUFFER_ADDR MAX_PACKET_LENGTH Direction.deviceToDma ::
              cycleBody (env.busyPolls s) (env.buffer s)) ++ loopTrace env m (s + 1) := by
          simp [loopTrace, hs]
        rw [hsplit]
        show (List.filterMap batchLine _) = _
        rw [List.filterMap_append, List.filterMap_cons]
        have h1 : batchLine
            (Event.submit DMA_RX_BUFFER_ADDR MAX_PACKET_LENGTH Direction.deviceToDma) = none :=
          rfl
        rw [h1]
        show outputStream (cycleBody (env.busyPolls s) (env.buffer s)) ++
            outputStream (loopTrace env m (s + 1)) = _
        rw [outputStream_cycleBody, hbs, List.flatten_cons]
      · intro b hb
        rcases List.mem_cons.mp hb with rfl | hb
        · refine ⟨(List.range 100).map fun i => sampleLine (readU16 (env.buffer s) i),
            rfl, by simp, ?_⟩
          intro l hl
          rw [List.mem_map] at hl
          obtain ⟨i, -, rfl⟩ := hl
          exact ⟨_, _, rfl⟩
        · exact hshape b hb
    · refine ⟨[], ?_, by simp⟩
      simp [loopTrace, hs, outputStream, List.filterMap_cons, batchLine]

/-- C10: the sample/separator output stream of any run is a concatenation
of complete batches — each batch is exactly 100 sample lines followed by
one separator line; a rejected submit aborts the run before any sample
line of its cycle is printed, so no partial batch is ever emitted. -/
theorem C10_stream_whole_batches (env : HwEnv) (fuel : ℕ) :
    ∃ batches : List (List Line),
      outputStream (programTrace env fuel) = batches.flatten ∧
      ∀ b ∈ batches, ∃ samples : List Line,
        b = samples ++ [Line.separator] ∧ samples.length = 100 ∧
        ∀ l ∈ samples, ∃ ip fp, l = Line.sample ip fp := by
  by_cases h1 : env.sysmonConfigFound = true
  · by_cases h2 : env.dmaConfigFound = true
    · by_cases h3 : env.dmaInitStatus = XST_SUCCESS
      · obtain ⟨bs, hbs, hshape⟩ := outputStream_loopTrace env fuel 0
        refine ⟨bs, ?_, hshape⟩
        rw [programTrace_good env fuel h1 h2 h3]
        show (List.filterMap batchLine _) = _
        rw [List.filterMap_append]
        show outputStream (initPrefix env) ++ outputStream (loopTrace env fuel 0) = _
        rw [outputStream_initPrefix, hbs, List.nil_append]
      · refine ⟨[], ?_, by simp⟩
        simp [programTrace, h1, h2, h3, monitorCfgEvents, outputStream,
          List.filterMap_cons, List.filterMap_append, batchLine]
    · refine ⟨[], ?_, by simp⟩
      simp [programTrace, h1, h2, monitorCfgEvents, outputStream,
        List.filterMap_cons, List.filterMap_append, batchLine]
  · refine ⟨[], ?_, by simp⟩
    simp [programTrace, h1, outputStream, List.filterMap_cons, batchLine]
